import Mathlib

/-!
Verification of the terminal-capability probing and render-caching core of
the `euporie` repository (`src/euporie/term.py`, `src/euporie/output/control.py`).

Python strings are modelled as `List Char`; machine behaviour that can raise a
Python exception (`TypeError` from `re`-functions applied to `None`,
`ZeroDivisionError` from `//`) is modelled with `Except Unit`.
-/

/-! ## Character classes of `CONTROL_RE` (term.py lines 13-42)

The classes are contiguous codepoint ranges, which we state on `Char.toNat`:

* `csi_params`: `[0-9:;<=>?]`  = codepoints 0x30..0x3F (48..63)
* `csi_inter` : `[!"#$%&'()*+,\-./]` = codepoints 0x21..0x2F (33..47)
* `csi_final` : `[A-Za-z@[\]^_`a–z{|}~]` — note the EN DASH (U+2013) in the
  source, written between `a` and `z`: inside a character class `a–z` is three
  literal characters, not a range.  The resulting set is
  0x40..0x5B (`@A-Z[`), 0x5D..0x7E (`]^_`a-z{|}~`, backslash 0x5C excluded),
  plus U+2013 (8211).
* `fe`        : `[NOP[\\\]X^_]` = {0x4E,0x4F,0x50,0x5B,0x5C,0x5D,0x58,0x5E,0x5F}
-/

def isCsiParam (c : Char) : Bool :=
  decide (48 ≤ c.toNat ∧ c.toNat ≤ 63)

def isCsiInter (c : Char) : Bool :=
  decide (33 ≤ c.toNat ∧ c.toNat ≤ 47)

def isCsiFinal (c : Char) : Bool :=
  decide ((64 ≤ c.toNat ∧ c.toNat ≤ 91) ∨ (93 ≤ c.toNat ∧ c.toNat ≤ 126) ∨ c.toNat = 8211)

def isFeByte (c : Char) : Bool :=
  decide (c.toNat = 78 ∨ c.toNat = 79 ∨ c.toNat = 80 ∨ c.toNat = 91 ∨ c.toNat = 92 ∨
          c.toNat = 93 ∨ c.toNat = 88 ∨ c.toNat = 94 ∨ c.toNat = 95)

/-- The CSI final-byte alphabet as the spec claims it: "letters and
`@[]^_\``" — codepoints 65..90 and 97..122 (letters), 64 (`@`), 91 (`[`),
93 (`]`), 94 (`^`), 95 (`_`), 96 (`` ` ``).  Stated from the spec's words
for comparison with the source's `isCsiFinal`. -/
def csiFinalAlphabetSpec (c : Char) : Bool :=
  decide ((65 ≤ c.toNat ∧ c.toNat ≤ 90) ∨ (97 ≤ c.toNat ∧ c.toNat ≤ 122) ∨
          c.toNat = 64 ∨ c.toNat = 91 ∨ c.toNat = 93 ∨ c.toNat = 94 ∨
          c.toNat = 95 ∨ c.toNat = 96)

/-- The amended CSI final-byte alphabet: the spec's set extended with `{`
(123), `|` (124), `}` (125), `~` (126) and EN DASH (U+2013, 8211), which the
source's character class also accepts. -/
def csiFinalAlphabetAmended (c : Char) : Bool :=
  decide ((65 ≤ c.toNat ∧ c.toNat ≤ 90) ∨ (97 ≤ c.toNat ∧ c.toNat ≤ 122) ∨
          c.toNat = 64 ∨ c.toNat = 91 ∨ c.toNat = 93 ∨ c.toNat = 94 ∨
          c.toNat = 95 ∨ c.toNat = 96 ∨ c.toNat = 123 ∨ c.toNat = 124 ∨
          c.toNat = 125 ∨ c.toNat = 126 ∨ c.toNat = 8211)

def isDigitB (c : Char) : Bool :=
  decide (48 ≤ c.toNat ∧ c.toNat ≤ 57)

def isHexB (c : Char) : Bool :=
  decide ((48 ≤ c.toNat ∧ c.toNat ≤ 57) ∨ (65 ≤ c.toNat ∧ c.toNat ≤ 70) ∨
          (97 ≤ c.toNat ∧ c.toNat ≤ 102))

/-! ## The Escape-Sequence Classifier: `CONTROL_RE.search`

The result of a successful match is the `groupdict()` of the match: every
named group is a key; a group that did not participate maps to Python `None`,
modelled as `Option.none`. -/

structure ControlMatch where
  csi : Option (List Char) := none
  csi_params : Option (List Char) := none
  csi_inter : Option (List Char) := none
  csi_final : Option (List Char) := none
  osc : Option (List Char) := none
  osc_string : Option (List Char) := none
  osc_term : Option (List Char) := none
  apc : Option (List Char) := none
  apc_string : Option (List Char) := none
  apc_term : Option (List Char) := none
  fe : Option (List Char) := none
deriving DecidableEq

/-- The CSI branch `\[ params* inter* final` after the escape byte.
The three character classes are pairwise disjoint, so the greedy `*` runs are
exactly maximal munches and no backtracking can occur. -/
def matchCsi : List Char → Option ControlMatch
  | '[' :: rest =>
    let ps := rest.takeWhile isCsiParam
    let r1 := rest.dropWhile isCsiParam
    let inters := r1.takeWhile isCsiInter
    let r2 := r1.dropWhile isCsiInter
    match r2 with
    | f :: _ =>
      if isCsiFinal f then
        some { csi := some ('[' :: (ps ++ inters ++ [f])),
               csi_params := some ps, csi_inter := some inters,
               csi_final := some [f] }
      else none
    | [] => none
  | _ => none

/-- One OSC/APC terminator at the head of the list: `\x1b\\|\x07`
(ST tried before BEL, as in the regex alternation). -/
def terminatorAt : List Char → Option (List Char)
  | '\x1b' :: '\\' :: _ => some ['\x1b', '\\']
  | '\x07' :: _ => some ['\x07']
  | _ => none

/-- ST terminator only (`\x1b\\`), used by the APC branch. -/
def stTerminatorAt : List Char → Option (List Char)
  | '\x1b' :: '\\' :: _ => some ['\x1b', '\\']
  | _ => none

/-- Greedy `.*(?=\x1b\\|\x07)` followed by the terminator: split the list into
the longest newline-free prefix that is followed by a terminator, and that
terminator.  `.` does not match a newline (no DOTALL flag). -/
def oscSplit : List Char → Option (List Char × List Char)
  | [] => none
  | c :: rest =>
    match (if c = '\n' then none
           else Option.map (fun pr => (c :: pr.1, pr.2)) (oscSplit rest)) with
    | some r => some r
    | none => Option.map (fun t => (([] : List Char), t)) (terminatorAt (c :: rest))

/-- Greedy `.*(?=\x1b\\)` followed by `\x1b\\`, for the APC branch. -/
def apcSplit : List Char → Option (List Char × List Char)
  | [] => none
  | c :: rest =>
    match (if c = '\n' then none
           else Option.map (fun pr => (c :: pr.1, pr.2)) (apcSplit rest)) with
    | some r => some r
    | none => Option.map (fun t => (([] : List Char), t)) (stTerminatorAt (c :: rest))

/-- No position of the list starts an OSC terminator (`\x1b\\` or `\x07`). -/
def oscTermFree : List Char → Bool
  | [] => true
  | c :: rest => (terminatorAt (c :: rest)).isNone && oscTermFree rest

/-- No position of the list starts an ST terminator (`\x1b\\`). -/
def apcTermFree : List Char → Bool
  | [] => true
  | c :: rest => (stTerminatorAt (c :: rest)).isNone && apcTermFree rest

/-- The OSC branch `\] string term` after the escape byte. -/
def matchOsc : List Char → Option ControlMatch
  | ']' :: rest =>
    match oscSplit rest with
    | some (s, t) =>
      some { osc := some (']' :: (s ++ t)), osc_string := some s, osc_term := some t }
    | none => none
  | _ => none

/-- The APC branch `_ string term` after the escape byte. -/
def matchApc : List Char → Option ControlMatch
  | '_' :: rest =>
    match apcSplit rest with
    | some (s, t) =>
      some { apc := some ('_' :: (s ++ t)), apc_string := some s, apc_term := some t }
    | none => none
  | _ => none

/-- The alternation after the mandatory `\x1b`: branches are tried in the
source order csi, osc, apc, fe. -/
def matchAtEsc (rest : List Char) : Option ControlMatch :=
  match matchCsi rest with
  | some m => some m
  | none =>
    match matchOsc rest with
    | some m => some m
    | none =>
      match matchApc rest with
      | some m => some m
      | none =>
        match rest with
        | c :: _ => if isFeByte c then some { fe := some [c] } else none
        | [] => none

/-- `CONTROL_RE.search`: the leftmost position at which the pattern matches.
Since the pattern begins with a literal `\x1b`, only escape bytes can start a
match. -/
def controlSearch : List Char → Option ControlMatch
  | [] => none
  | '\x1b' :: rest =>
    match matchAtEsc rest with
    | some m => some m
    | none => controlSearch rest
  | _ :: rest => controlSearch rest

/-! ## The Device Attributes delimiter pattern (term.py line 61)

`QueryResponsePatterns.device = re.compile(r"\x1b\[\>(\d;?)+c")`.
The repetition `(\d;?)+` matches exactly the nonempty strings over digits and
`;` that start with a digit and contain no two consecutive `;` — and since the
following literal `c` is in neither class, a match must consume the whole
maximal digit/`;` run. -/

def isDevParamChar (c : Char) : Bool := isDigitB c || decide (c = ';')

def noSemiSemi : List Char → Bool
  | ';' :: ';' :: _ => false
  | _ :: rest => noSemiSemi rest
  | [] => true

def devRunExact (l : List Char) : Bool :=
  match l with
  | [] => false
  | c :: _ => isDigitB c && l.all isDevParamChar && noSemiSemi l

/-- Length of a device-pattern match starting at this position, if any. -/
def deviceMatchAt (l : List Char) : Option Nat :=
  match l with
  | '\x1b' :: '[' :: '>' :: rest =>
    let run := rest.takeWhile isDevParamChar
    match rest.drop run.length with
    | 'c' :: _ => if devRunExact run then some (3 + run.length + 1) else none
    | _ => none
  | _ => none

/-- `re.search(QueryResponsePatterns.device, output)` as a boolean. -/
def containsDevice : List Char → Bool
  | [] => false
  | l@(_ :: rest) => (deviceMatchAt l).isSome || containsDevice rest

/-- `re.sub(QueryResponsePatterns.device, "", output, 1)`: remove the leftmost
match of the delimiter pattern. -/
def removeFirstDevice : List Char → List Char
  | [] => []
  | l@(c :: rest) =>
    match deviceMatchAt l with
    | some n => l.drop n
    | none => c :: removeFirstDevice rest

/-! ## The Query/Response Protocol Engine: `TermAppMixin._query_term`
(term.py lines 87-134)

The terminal attribute state and the count of `termios.tcsetattr` calls are
threaded explicitly.  The read loop consumes a list of read events: each
`sys.stdin.read(1)` either yields a byte or raises.  An exhausted event list
models the read that blocks forever (the loop never exits, so the `finally`
block never runs).  Bytes written to the output (the delimiter and query
codes) do not influence any state tracked here, so writes are not modelled. -/

inductive ReadEv
  | byte (c : Char)
  | exn
deriving DecidableEq

inductive LoopRes
  | finished (output : List Char)
  | raised
  | blocked
deriving DecidableEq

/-- The `while True:` read loop.  `output_started` records whether the first
delimiter match has been seen (after which the accumulator was reset and the
second delimiter emitted). -/
def queryLoop : List ReadEv → List Char → Bool → LoopRes
  | [], _, _ => .blocked
  | ReadEv.exn :: _, _, _ => .raised
  | ReadEv.byte c :: rest, output, outputStarted =>
    let output1 := output ++ [c]
    if containsDevice output1 then
      if outputStarted then .finished output1
      else queryLoop rest [] true
    else queryLoop rest output1 outputStarted

structure TermWorld where
  cbreak : Bool
  tcsetattrCalls : Nat
deriving DecidableEq

/-- `tty.setcbreak(stdin, termios.TCSANOW)` -/
def setcbreakPrim (w : TermWorld) : TermWorld := { w with cbreak := true }

/-- `termios.tcsetattr(stdin, termios.TCSANOW, tattr)` -/
def tcsetattrPrim (saved : Bool) (w : TermWorld) : TermWorld :=
  { cbreak := saved, tcsetattrCalls := w.tcsetattrCalls + 1 }

inductive QueryOutcome
  | finished (r : Option ControlMatch)
  | raised
  | blocked
deriving DecidableEq

/-- `TermAppMixin._query_term` on the path where termios/tty/fcntl are
available: capture the prior attributes, enter cbreak mode inside the `try`,
run the read loop, and restore the captured attributes in the `finally`
(which runs exactly when the loop exits, normally or by exception). -/
def query_term_run (reads : List ReadEv) (w : TermWorld) : QueryOutcome × TermWorld :=
  let tattr := w.cbreak
  let w1 := setcbreakPrim w
  match queryLoop reads [] false with
  | LoopRes.blocked => (.blocked, w1)
  | LoopRes.raised => (.raised, tcsetattrPrim tattr w1)
  | LoopRes.finished out =>
    (.finished (controlSearch (removeFirstDevice out)), tcsetattrPrim tattr w1)

/-! ## Capability parsing helpers -/

/-- `re.findall(r"\d+", s)` — the maximal digit runs of `s`, left to right. -/
def digitRunsAux : List Char → List Char → List (List Char)
  | [], acc => if acc = [] then [] else [acc.reverse]
  | c :: rest, acc =>
    if isDigitB c then digitRunsAux rest (c :: acc)
    else if acc = [] then digitRunsAux rest []
    else acc.reverse :: digitRunsAux rest []

def digitRuns (l : List Char) : List (List Char) := digitRunsAux l []

/-- `int(s)` on a digit string. -/
def natOfDigits (l : List Char) : Nat :=
  l.foldl (fun n c => n * 10 + (c.toNat - 48)) 0

/-- Python `str.split(";")` (splitting on every `;`; `"".split(";") == [""]`). -/
def splitSemiAux : List Char → List Char → List (List Char)
  | [], acc => [acc.reverse]
  | ';' :: rest, acc => acc.reverse :: splitSemiAux rest []
  | c :: rest, acc => splitSemiAux rest (c :: acc)

def splitSemi (l : List Char) : List (List Char) := splitSemiAux l []

/-- `int(b)` on a Python bool. -/
def pyBoolNat : Bool → Nat
  | true => 1
  | false => 0

/-! ## `QueryResponsePatterns` used by the accessors (term.py lines 58-67) -/

/-- `re.match` of `11;rgb:(?P<r>[0-9A-Fa-f]{2,4})/(?P<g>..)/(?P<b>..)` against
the start of the OSC payload.  `{2,4}` is greedy with backtracking: for the
`r` and `g` fields the following literal `/` is not a hex digit, so the field
matches iff the maximal hex run at that point has length 2..4 and is followed
by `/`; the final `b` field matches the first `min(4, run length)` characters
of a hex run of length ≥ 2 (trailing input after the match is ignored —
`re.match` only anchors the start). -/
def bgColorMatch (l : List Char) : Option (List Char × List Char × List Char) :=
  match l with
  | '1' :: '1' :: ';' :: 'r' :: 'g' :: 'b' :: ':' :: rest =>
    let rrun := rest.takeWhile isHexB
    let r1 := rest.dropWhile isHexB
    if 2 ≤ rrun.length ∧ rrun.length ≤ 4 then
      match r1 with
      | '/' :: rest2 =>
        let grun := rest2.takeWhile isHexB
        let r2 := rest2.dropWhile isHexB
        if 2 ≤ grun.length ∧ grun.length ≤ 4 then
          match r2 with
          | '/' :: rest3 =>
            let brun := rest3.takeWhile isHexB
            if 2 ≤ brun.length then some (rrun, grun, brun.take 4) else none
          | _ => none
        else none
      | _ => none
    else none
  | _ => none

/-- `re.match` of `4;(?P<y>\d+);(?P<x>\d+)` against the start of the CSI
parameter string; returns the `(y, x)` capture values. -/
def pixelDimsMatch (l : List Char) : Option (List Char × List Char) :=
  match l with
  | '4' :: ';' :: rest =>
    let ys := rest.takeWhile isDigitB
    let r1 := rest.dropWhile isDigitB
    if ys = [] then none
    else
      match r1 with
      | ';' :: rest2 =>
        let xs := rest2.takeWhile isDigitB
        if xs = [] then none else some (ys, xs)
      | _ => none
  | _ => none

/-! ## The Capability Cache accessors (term.py lines 147-213)

Each accessor body is modelled as a function of the `_query_term` result
(`None` or a `groupdict`).  A Python expression that raises (an `re` function
applied to `None`, or `None.startswith`) is an `Except.error`. -/

/-- Body of `TermAppMixin.bg_color` (term.py lines 147-161) applied to the
result of `_query_term(QueryCodes.background_color)`.

`if oscs := result.get("osc_string")` is falsy both for `None` (the group did
not participate) and for the empty string.  On a successful pattern match the
`groupdict` always has the three keys `r`, `g`, `b` with participating
values, so the `.get(..., "00")` defaults and the `len(colors) >= 3` test
never alter the outcome; the result is `#` followed by the first two
characters of each field. -/
def bg_color (result : Option ControlMatch) : Option (List Char) :=
  match result with
  | none => none
  | some r =>
    match r.osc_string with
    | none => none
    | some s =>
      if s = [] then none
      else
        match bgColorMatch s with
        | none => none
        | some (rv, gv, bv) => some ('#' :: (rv.take 2 ++ gv.take 2 ++ bv.take 2))

/-- Body of `TermAppMixin.term_size_px` (term.py lines 163-177) given the
ioctl-reported pixel extents `xpx, ypx` and the probe result (the probe is
only issued when `xpx == 0`; when `xpx ≠ 0` the caller passes no probe).

The source contains `(x := values.get("x") is not None) and
(y := values.get("y") is not None)`: by Python precedence the walrus binds the
*boolean* of the comparison, not the capture value, and `int(True) == 1` —
so on a successful fallback parse the result is `(1, 1)`, the parsed capture
values being discarded.  When the match succeeds both named groups always
participate, so both booleans are `True`.

If the response is not a CSI match, `result.get("csi_params", "")` is `None`
(the key is present in the groupdict) and `re.match` applied to `None` raises
`TypeError`. -/
def term_size_px (xpx ypx : Nat) (probe : Option ControlMatch) :
    Except Unit (Nat × Nat) :=
  if xpx = 0 then
    match probe with
    | none => .ok (xpx, ypx)
    | some r =>
      match r.csi_params with
      | none => .error ()
      | some params =>
        match pixelDimsMatch params with
        | none => .ok (xpx, ypx)
        | some _ =>
          let x : Bool := true
          let y : Bool := true
          if x && y then .ok (pyBoolNat x, pyBoolNat y) else .ok (xpx, ypx)
  else .ok (xpx, ypx)

/-- Body of `TermAppMixin.char_size_px` (term.py lines 179-187) given the
result of `term_size_px` and the `(rows, cols)` cell counts from
`self.output.get_size()`.  `px // cols` is evaluated before `py // rows`;
Python integer division by zero raises `ZeroDivisionError`. -/
def char_size_px (px py rows cols : Nat) : Except Unit (Nat × Nat) :=
  if px = 0 then .ok (10, 22)
  else if cols = 0 then .error ()
  else if rows = 0 then .error ()
  else .ok (px / cols, py / rows)

/-- Body of `TermAppMixin.has_sixel_graphics` (term.py lines 189-201) applied
to the result of `_query_term(QueryCodes.sixel)`.

If the response is not a CSI match, `result.get("csi_params", "")` is `None`
and `re.findall` applied to `None` raises `TypeError` (which `lru_cache` does
not cache). -/
def has_sixel_compute (result : Option ControlMatch) : Except Unit Bool :=
  match result with
  | none => .ok false
  | some r =>
    match r.csi_params with
    | none => .error ()
    | some param_str =>
      let params := (digitRuns param_str).map natOfDigits
      match params with
      | _ :: ps :: _ :: _ => if ps = 0 then .ok true else .ok false
      | _ => .ok false

/-- Body of `TermAppMixin.has_kitty_graphics` (term.py lines 203-213) applied
to the result of `_query_term(QueryCodes.kitty)`.

`apc_string.lstrip("G")` strips every leading `G`; `None.startswith` raises
`AttributeError` when the response is not an APC match. -/
def has_kitty_compute (result : Option ControlMatch) : Except Unit Bool :=
  match result with
  | none => .ok false
  | some r =>
    match r.apc_string with
    | none => .error ()
    | some s =>
      match s with
      | 'G' :: _ =>
        let response := splitSemi (s.dropWhile (fun c => c = 'G'))
        match response with
        | _ :: second :: _ => if second = ['O', 'K'] then .ok true else .ok false
        | _ => .ok false
      | _ => .ok false

/-! ## Process-level accessor semantics (the Capability Cache, term.py)

`TermAppMixin` exposes the capabilities as properties.  Only
`_have_termios_tty_fcntl`, `has_sixel_graphics` and `has_kitty_graphics`
carry `@lru_cache`; `bg_color`, `term_size_px` and `char_size_px` are plain
properties and re-run their body on every access.

The terminal is modelled as a fixed oracle mapping each query code to the
`_query_term` result of one engine round-trip, plus the ioctl/`get_size`
numbers; the process state tracks how many `_query_term` round-trips were
issued, and the `lru_cache` memo cells of the two cached properties.
`lru_cache` memoizes only calls that return normally: a call that raises
stores nothing. -/

inductive QueryCode
  | device
  | pixelDimensions
  | backgroundColor
  | sixel
  | kitty
deriving DecidableEq

structure Oracle where
  resp : QueryCode → Option ControlMatch
  rows : Nat
  cols : Nat
  xpx : Nat
  ypx : Nat

structure CapState where
  queryCount : Nat
  sixelMemo : Option Bool
  kittyMemo : Option Bool
deriving DecidableEq

/-- One `_query_term` round-trip: returns the oracle's answer and counts the
call. -/
def runQuery (o : Oracle) (q : QueryCode) (s : CapState) :
    Option ControlMatch × CapState :=
  (o.resp q, { s with queryCount := s.queryCount + 1 })

/-- One access of the `bg_color` property: no memoization, always probes. -/
def bg_color_access (o : Oracle) (s : CapState) : Option (List Char) × CapState :=
  let r := runQuery o QueryCode.backgroundColor s
  (bg_color r.1, r.2)

/-- One access of the `has_sixel_graphics` property (`@lru_cache`). -/
def has_sixel_access (o : Oracle) (s : CapState) : Except Unit Bool × CapState :=
  match s.sixelMemo with
  | some v => (.ok v, s)
  | none =>
    let r := runQuery o QueryCode.sixel s
    match has_sixel_compute r.1 with
    | .ok v => (.ok v, { r.2 with sixelMemo := some v })
    | .error e => (.error e, r.2)

/-- One access of the `has_kitty_graphics` property (`@lru_cache`). -/
def has_kitty_access (o : Oracle) (s : CapState) : Except Unit Bool × CapState :=
  match s.kittyMemo with
  | some v => (.ok v, s)
  | none =>
    let r := runQuery o QueryCode.kitty s
    match has_kitty_compute r.1 with
    | .ok v => (.ok v, { r.2 with kittyMemo := some v })
    | .error e => (.error e, r.2)

/-- One access of the `term_size_px` property: no memoization; the probe is
issued exactly when the ioctl window-size query reports zero pixel width. -/
def term_size_px_access (o : Oracle) (s : CapState) :
    Except Unit (Nat × Nat) × CapState :=
  if o.xpx = 0 then
    let r := runQuery o QueryCode.pixelDimensions s
    (term_size_px o.xpx o.ypx r.1, r.2)
  else (term_size_px o.xpx o.ypx none, s)

/-- One access of the `char_size_px` property: no memoization; re-reads
`term_size_px` and `output.get_size()` each time. -/
def char_size_px_access (o : Oracle) (s : CapState) :
    Except Unit (Nat × Nat) × CapState :=
  let r := term_size_px_access o s
  match r.1 with
  | .error e => (.error e, r.2)
  | .ok (px, py) => (char_size_px px py o.rows o.cols, r.2)

/-! ## The Render Output Cache (`OutputControl`, output/control.py)

`SimpleCache` (prompt_toolkit, an external collaborator) is a key→value store
with insertion-order bookkeeping: `get(key, getter)` returns the stored value
when the key is present, otherwise computes the value with `getter`, stores
it, and when the store exceeds `maxsize` (20 here) discards the oldest entry.
It is modelled as an association list in insertion order.

The renderer (`self.renderer.render`, an external collaborator) is a function
argument; invocations are counted, modelling the claim's call counter.  Cache
keys are `(width, *self.extra_keys)`; `extra_keys` is a fixed per-control
sequence (empty in the base class, the graphic visibility flag for images),
modelled as a `List Bool` field. -/

structure Ctl where
  extraKeys : List Bool
  formatCache : List ((Nat × List Bool) × List (List Char))
  renderedLines : List (List Char)
  renderCount : Nat
deriving DecidableEq

def cacheLookup : List ((Nat × List Bool) × List (List Char)) → (Nat × List Bool) →
    Option (List (List Char))
  | [], _ => none
  | (k, v) :: rest, key => if k = key then some v else cacheLookup rest key

/-- Python `str.splitlines()` line boundaries (LF, CR, CRLF, VT, FF, FS, GS,
RS, NEL, LS, PS). -/
def isLineBoundary (c : Char) : Bool :=
  decide (c.toNat = 10 ∨ c.toNat = 13 ∨ c.toNat = 11 ∨ c.toNat = 12 ∨ c.toNat = 28 ∨
          c.toNat = 29 ∨ c.toNat = 30 ∨ c.toNat = 133 ∨ c.toNat = 8232 ∨ c.toNat = 8233)

def splitLinesAux : List Char → List Char → List (List Char)
  | [], acc => if acc = [] then [] else [acc.reverse]
  | '\r' :: '\n' :: rest, acc => acc.reverse :: splitLinesAux rest []
  | c :: rest, acc =>
    if isLineBoundary c then acc.reverse :: splitLinesAux rest []
    else splitLinesAux rest (c :: acc)

def splitLines (l : List Char) : List (List Char) := splitLinesAux l []

/-- `s.rstrip("\n")` -/
def rstripNl (l : List Char) : List Char :=
  ((l.reverse).dropWhile (fun c => c = '\n')).reverse

/-- `OutputControl.render` (output/control.py lines 144-148): invoke the
renderer, strip trailing newlines, split into lines. -/
def renderCtl (rf : Nat → Nat → List Char) (w h : Nat) (st : Ctl) :
    List (List Char) × Ctl :=
  (splitLines (rstripNl (rf w h)), { st with renderCount := st.renderCount + 1 })

/-- `OutputControl.get_rendered_lines` (output/control.py lines 93-98):
`self._format_cache.get((width, *self.extra_keys), lambda: self.render(width, height))`.
The height is not part of the key. -/
def get_rendered_lines (rf : Nat → Nat → List Char) (w h : Nat) (st : Ctl) :
    List (List Char) × Ctl :=
  match cacheLookup st.formatCache (w, st.extraKeys) with
  | some v => (v, st)
  | none =>
    let r := renderCtl rf w h st
    let data1 := r.2.formatCache ++ [((w, st.extraKeys), r.1)]
    let data2 := if 20 < data1.length then data1.drop 1 else data1
    (r.1, { r.2 with formatCache := data2 })

/-- `OutputControl.preferred_width` (output/control.py lines 100-109): a
maximum over the previously rendered lines measured by the prompt_toolkit
ANSI fragment-length functions (external, modelled as the `measure`
argument); `None` when nothing has been rendered.  Never renders. -/
def preferred_width (measure : List Char → Nat) (st : Ctl) : Option Nat × Ctl :=
  if st.renderedLines = [] then (none, st)
  else (some ((st.renderedLines.map measure).foldl Nat.max 0), st)

/-- `OutputControl.preferred_height` (output/control.py lines 111-121):
renders through the format cache only when no lines are stored yet. -/
def preferred_height (rf : Nat → Nat → List Char) (w maxH : Nat) (st : Ctl) :
    Nat × Ctl :=
  if st.renderedLines = [] then
    let r := get_rendered_lines rf w maxH st
    (r.1.length, { r.2 with renderedLines := r.1 })
  else (st.renderedLines.length, st)

/-! ## Sanity checks on concrete buffers -/

example :
    controlSearch ['\x1b', '[', '0', ';', '0', ';', '0', 'S'] =
      some { csi := some ['[', '0', ';', '0', ';', '0', 'S'],
             csi_params := some ['0', ';', '0', ';', '0'],
             csi_inter := some [], csi_final := some ['S'] } := by decide

example :
    controlSearch ['\x1b', ']', 'a', 'b', '\x07'] =
      some { osc := some [']', 'a', 'b', '\x07'], osc_string := some ['a', 'b'],
             osc_term := some ['\x07'] } := by decide

example :
    controlSearch ['\x1b', '_', 'G', 'x', '\x1b', '\\'] =
      some { apc := some ['_', 'G', 'x', '\x1b', '\\'], apc_string := some ['G', 'x'],
             apc_term := some ['\x1b', '\\'] } := by decide

-- an unterminated OSC still matches: the `]` byte is in the fe class
example :
    controlSearch ['\x1b', ']', 'a', 'b'] = some { fe := some [']'] } := by decide

example : containsDevice ['a', '\x1b', '[', '>', '8', '5', ';', '9', '5', ';', '0', 'c'] = true := by
  decide

example : containsDevice ['\x1b', '[', '>', 'c'] = false := by decide

example : containsDevice ['\x1b', '[', '>', '1', ';', ';', '2', 'c'] = false := by decide

example :
    removeFirstDevice ['x', '\x1b', '[', '>', '0', 'c', 'y'] = ['x', 'y'] := by decide

example : digitRuns ['0', ';', '1', ';', '0'] = [['0'], ['1'], ['0']] := by decide
example : natOfDigits ['3', '0', '0'] = 300 := by decide
example : splitSemi ['i', '=', '1', ';', 'O', 'K'] = [['i', '=', '1'], ['O', 'K']] := by decide

example :
    bg_color (controlSearch
      ['\x1b', ']', '1', '1', ';', 'r', 'g', 'b', ':', '1', '2', '3', '4', '/',
       '5', '6', '7', '8', '/', '9', 'a', 'b', 'c', '\x1b', '\\']) =
      some ['#', '1', '2', '5', '6', '9', 'a'] := by decide

example :
    has_sixel_compute (controlSearch ['\x1b', '[', '0', ';', '0', ';', '0', 'S']) =
      .ok true := rfl

example :
    has_kitty_compute (controlSearch
      ['\x1b', '_', 'G', 'i', '=', '1', ';', 'O', 'K', '\x1b', '\\']) = .ok true := rfl

example :
    term_size_px 0 0 (controlSearch
      ['\x1b', '[', '4', ';', '3', '0', '0', ';', '4', '0', '0', 't']) =
      .ok (1, 1) := rfl

/-! ## Helper lemmas -/

theorem takeWhile_append_all (f : Char → Bool) (p q : List Char)
    (h : ∀ c ∈ p, f c = true) : (p ++ q).takeWhile f = p ++ q.takeWhile f := by
  induction p with
  | nil => simp
  | cons a p ih =>
    have ha : f a = true := h a (List.mem_cons_self a p)
    simp only [List.cons_append, List.takeWhile_cons, ha]
    simp [ih (fun c hc => h c (List.mem_cons_of_mem a hc))]

theorem dropWhile_append_all (f : Char → Bool) (p q : List Char)
    (h : ∀ c ∈ p, f c = true) : (p ++ q).dropWhile f = q.dropWhile f := by
  induction p with
  | nil => simp
  | cons a p ih =>
    have ha : f a = true := h a (List.mem_cons_self a p)
    simp only [List.cons_append, List.dropWhile_cons, ha]
    simp [ih (fun c hc => h c (List.mem_cons_of_mem a hc))]

theorem param_not_final {c : Char} (h : isCsiParam c = true) : isCsiFinal c = false := by
  simp only [isCsiParam, decide_eq_true_eq] at h
  simp only [isCsiFinal, decide_eq_false_iff_not]
  omega

theorem inter_not_final {c : Char} (h : isCsiInter c = true) : isCsiFinal c = false := by
  simp only [isCsiInter, decide_eq_true_eq] at h
  simp only [isCsiFinal, decide_eq_false_iff_not]
  omega

theorem final_not_param {c : Char} (h : isCsiFinal c = true) : isCsiParam c = false := by
  simp only [isCsiFinal, decide_eq_true_eq] at h
  simp only [isCsiParam, decide_eq_false_iff_not]
  omega

theorem final_not_inter {c : Char} (h : isCsiFinal c = true) : isCsiInter c = false := by
  simp only [isCsiFinal, decide_eq_true_eq] at h
  simp only [isCsiInter, decide_eq_false_iff_not]
  omega

theorem oscSplit_append_bel (p : List Char) (h : ∀ c ∈ p, c ≠ '\n') :
    oscSplit (p ++ ['\x07']) = some (p, ['\x07']) := by
  induction p with
  | nil => rfl
  | cons a p ih =>
    have ha : ¬(a = '\n') := h a (List.mem_cons_self a p)
    have ih' := ih (fun c hc => h c (List.mem_cons_of_mem a hc))
    simp [oscSplit, ha, ih']

theorem oscSplit_append_st (p : List Char) (h : ∀ c ∈ p, c ≠ '\n') :
    oscSplit (p ++ ['\x1b', '\\']) = some (p, ['\x1b', '\\']) := by
  induction p with
  | nil => rfl
  | cons a p ih =>
    have ha : ¬(a = '\n') := h a (List.mem_cons_self a p)
    have ih' := ih (fun c hc => h c (List.mem_cons_of_mem a hc))
    simp [oscSplit, ha, ih']

theorem apcSplit_append_st (p : List Char) (h : ∀ c ∈ p, c ≠ '\n') :
    apcSplit (p ++ ['\x1b', '\\']) = some (p, ['\x1b', '\\']) := by
  induction p with
  | nil => rfl
  | cons a p ih =>
    have ha : ¬(a = '\n') := h a (List.mem_cons_self a p)
    have ih' := ih (fun c hc => h c (List.mem_cons_of_mem a hc))
    simp [apcSplit, ha, ih']

theorem oscSplit_none_of_termFree (p : List Char) (h : oscTermFree p = true) :
    oscSplit p = none := by
  induction p with
  | nil => rfl
  | cons a p ih =>
    simp only [oscTermFree, Bool.and_eq_true, Option.isNone_iff_eq_none] at h
    obtain ⟨h1, h2⟩ := h
    simp [oscSplit, ih h2, h1]

theorem apcSplit_none_of_termFree (p : List Char) (h : apcTermFree p = true) :
    apcSplit p = none := by
  induction p with
  | nil => rfl
  | cons a p ih =>
    simp only [apcTermFree, Bool.and_eq_true, Option.isNone_iff_eq_none] at h
    obtain ⟨h1, h2⟩ := h
    simp [apcSplit, ih h2, h1]

theorem matchCsi_not_lb (rest : List Char) : matchCsi (']' :: rest) = none := rfl

theorem matchCsi_not_us (rest : List Char) : matchCsi ('_' :: rest) = none := rfl

theorem matchOsc_not_rb (rest : List Char) : matchOsc ('[' :: rest) = none := rfl

theorem matchOsc_not_us (rest : List Char) : matchOsc ('_' :: rest) = none := rfl

theorem matchApc_not_lb (rest : List Char) : matchApc ('[' :: rest) = none := rfl

theorem matchApc_not_rb (rest : List Char) : matchApc (']' :: rest) = none := rfl

/-- Embedding parameter bytes and a final byte into a CSI buffer recovers the
parameter bytes: the three character classes are pairwise disjoint, so the
maximal runs stop exactly at the boundaries. -/
theorem matchCsi_roundtrip (p : List Char) (f : Char)
    (hp : ∀ c ∈ p, isCsiParam c = true) (hf : isCsiFinal f = true) :
    matchCsi ('[' :: (p ++ [f])) =
      some { csi := some ('[' :: (p ++ [f])), csi_params := some p,
             csi_inter := some [], csi_final := some [f] } := by
  have hfp : isCsiParam f = false := final_not_param hf
  have hfi : isCsiInter f = false := final_not_inter hf
  simp [matchCsi, takeWhile_append_all isCsiParam p [f] hp,
        dropWhile_append_all isCsiParam p [f] hp, hfp, hfi, hf]

theorem matchAtEsc_of_csi (l : List Char) (m : ControlMatch) (h : matchCsi l = some m) :
    matchAtEsc l = some m := by
  simp [matchAtEsc, h]

theorem controlSearch_esc (l : List Char) (m : ControlMatch) (h : matchAtEsc l = some m) :
    controlSearch ('\x1b' :: l) = some m := by
  simp [controlSearch, h]

theorem matchAtEsc_osc (rest : List Char) (s t : List Char)
    (h : oscSplit rest = some (s, t)) :
    matchAtEsc (']' :: rest) =
      some { osc := some (']' :: (s ++ t)), osc_string := some s, osc_term := some t } := by
  simp [matchAtEsc, matchCsi_not_lb, matchApc_not_rb, matchOsc, h]

theorem matchAtEsc_apc (rest : List Char) (s t : List Char)
    (h : apcSplit rest = some (s, t)) :
    matchAtEsc ('_' :: rest) =
      some { apc := some ('_' :: (s ++ t)), apc_string := some s, apc_term := some t } := by
  simp [matchAtEsc, matchCsi_not_us, matchOsc_not_us, matchApc, h]

theorem matchAtEsc_osc_unterminated (rest : List Char) (h : oscSplit rest = none) :
    matchAtEsc (']' :: rest) = some { fe := some [']'] } := by
  simp [matchAtEsc, matchCsi_not_lb, matchApc_not_rb, matchOsc, h, isFeByte]

theorem matchAtEsc_apc_unterminated (rest : List Char) (h : apcSplit rest = none) :
    matchAtEsc ('_' :: rest) = some { fe := some ['_'] } := by
  simp [matchAtEsc, matchCsi_not_us, matchOsc_not_us, matchApc, h, isFeByte]

/-! ## Claim C5 -/

/-- C5 counterexample: the claim states that a buffer whose OSC payload has no
terminator before the end of the buffer "does not classify at all".  On the
code, the unterminated buffer `\x1b]ab` does classify: the OSC branch fails,
but the `]` byte itself is in the `fe` character class, so `CONTROL_RE.search`
returns a bare-Fe match. -/
theorem claimC5_counterexample :
    controlSearch ['\x1b', ']', 'a', 'b'] = some { fe := some [']'] } := by decide

/-- C5 (amended): embedding a payload into a well-formed synthetic response
buffer and classifying recovers the payload byte-for-byte, with the OSC/APC
terminator captured separately and excluded from the string value, provided
the payload contains no newline (the regex `.` does not match `\n`); CSI
parameter payloads are recovered for any final byte of the pattern's
final-byte class.  An OSC/APC buffer with no terminator before the end of the
buffer is not classified as OSC/APC (no string captured) — but the buffer
still classifies, as a bare Fe sequence on the `]`/`_` byte. -/
theorem claimC5_amended :
    (∀ p f, (∀ c ∈ p, isCsiParam c = true) → isCsiFinal f = true →
      controlSearch ('\x1b' :: '[' :: (p ++ [f])) =
        some { csi := some ('[' :: (p ++ [f])), csi_params := some p,
               csi_inter := some [], csi_final := some [f] }) ∧
    (∀ p, (∀ c ∈ p, c ≠ '\n') →
      controlSearch ('\x1b' :: ']' :: (p ++ ['\x07'])) =
        some { osc := some (']' :: (p ++ ['\x07'])), osc_string := some p,
               osc_term := some ['\x07'] } ∧
      controlSearch ('\x1b' :: ']' :: (p ++ ['\x1b', '\\'])) =
        some { osc := some (']' :: (p ++ ['\x1b', '\\'])), osc_string := some p,
               osc_term := some ['\x1b', '\\'] }) ∧
    (∀ p, (∀ c ∈ p, c ≠ '\n') →
      controlSearch ('\x1b' :: '_' :: (p ++ ['\x1b', '\\'])) =
        some { apc := some ('_' :: (p ++ ['\x1b', '\\'])), apc_string := some p,
               apc_term := some ['\x1b', '\\'] }) ∧
    (∀ p, oscTermFree p = true →
      controlSearch ('\x1b' :: ']' :: p) = some { fe := some [']'] }) ∧
    (∀ p, apcTermFree p = true →
      controlSearch ('\x1b' :: '_' :: p) = some { fe := some ['_'] }) := by
  refine ⟨?_, ?_, ?_, ?_, ?_⟩
  · intro p f hp hf
    exact controlSearch_esc _ _ (matchAtEsc_of_csi _ _ (matchCsi_roundtrip p f hp hf))
  · intro p hp
    exact ⟨controlSearch_esc _ _ (matchAtEsc_osc _ _ _ (oscSplit_append_bel p hp)),
           controlSearch_esc _ _ (matchAtEsc_osc _ _ _ (oscSplit_append_st p hp))⟩
  · intro p hp
    exact controlSearch_esc _ _ (matchAtEsc_apc _ _ _ (apcSplit_append_st p hp))
  · intro p hp
    exact controlSearch_esc _ _ (matchAtEsc_osc_unterminated _ (oscSplit_none_of_termFree p hp))
  · intro p hp
    exact controlSearch_esc _ _ (matchAtEsc_apc_unterminated _ (apcSplit_none_of_termFree p hp))

/-- C5 witness: the amended round-trip at concrete payloads. -/
theorem claimC5_witness :
    controlSearch ['\x1b', ']', 'a', 'b', '\x07'] =
      some { osc := some [']', 'a', 'b', '\x07'], osc_string := some ['a', 'b'],
             osc_term := some ['\x07'] } ∧
    controlSearch ['\x1b', '[', '0', ';', '0', 'S'] =
      some { csi := some ['[', '0', ';', '0', 'S'], csi_params := some ['0', ';', '0'],
             csi_inter := some [], csi_final := some ['S'] } ∧
    controlSearch ['\x1b', '_', 'G', 'x', '\x1b', '\\'] =
      some { apc := some ['_', 'G', 'x', '\x1b', '\\'], apc_string := some ['G', 'x'],
             apc_term := some ['\x1b', '\\'] } := by
  refine ⟨(claimC5_amended.2.1 ['a', 'b'] (by decide)).1,
          claimC5_amended.1 ['0', ';', '0'] 'S' (by decide) (by decide),
          claimC5_amended.2.2.1 ['G', 'x'] (by decide)⟩

/-! ## Claim C6 -/

theorem isCsiFinal_eq_amended (c : Char) : isCsiFinal c = csiFinalAlphabetAmended c := by
  simp only [isCsiFinal, csiFinalAlphabetAmended, decide_eq_decide]
  omega

/-- `matchCsi` on a single candidate final byte. -/
theorem matchCsi_single (c : Char) :
    matchCsi ['[', c] =
      (if isCsiFinal c = true then
        some { csi := some ['[', c], csi_params := some [], csi_inter := some [],
               csi_final := some [c] }
      else none) := by
  by_cases hp : isCsiParam c = true
  · have hf : isCsiFinal c = false := param_not_final hp
    simp [matchCsi, hp, hf]
  · by_cases hi : isCsiInter c = true
    · have hf : isCsiFinal c = false := inter_not_final hi
      simp [matchCsi, hp, hi, hf]
    · by_cases hf : isCsiFinal c = true
      · simp [matchCsi, hp, hi, hf]
      · simp [matchCsi, hp, hi, hf]

/-- C6 counterexample: the claim states that no byte outside "letters and
`@[]^_\``" is accepted as a CSI final byte, but the source's class (written
`[A-Za-z@[\]^_`a–z{|}~]`, with a literal EN DASH) also accepts `{|}~` and
U+2013.  The buffer `\x1b[~` classifies as a CSI sequence with final byte `~`,
which is not in the claimed alphabet. -/
theorem claimC6_counterexample :
    csiFinalAlphabetSpec '~' = false ∧
    controlSearch ['\x1b', '[', '~'] =
      some { csi := some ['[', '~'], csi_params := some [], csi_inter := some [],
             csi_final := some ['~'] } := by decide

/-- C6 (amended): after `\x1b[`, maximal parameter and intermediate runs and
exactly one final byte are accepted, where the final-byte alphabet is letters
and `@[]^_\`` *plus* `{|}~` and EN DASH (U+2013); a candidate byte is captured
as the CSI final byte exactly when it lies in this amended alphabet (the
source class omits the backslash 0x5C that ECMA-48 would allow, and gains
U+2013, because the class was written with a typographic dash). -/
theorem claimC6_amended (c : Char) :
    Option.bind (controlSearch ['\x1b', '[', c]) ControlMatch.csi_final =
      (if csiFinalAlphabetAmended c = true then some [c] else none) := by
  have h := matchCsi_single c
  by_cases hf : isCsiFinal c = true
  · rw [if_pos hf] at h
    have hs := controlSearch_esc ['[', c] _ (matchAtEsc_of_csi _ _ h)
    rw [hs]
    have ha : csiFinalAlphabetAmended c = true := by
      rw [← isCsiFinal_eq_amended]; exact hf
    simp [ha]
  · rw [if_neg hf] at h
    have hA : matchAtEsc ['[', c] = some { fe := some ['['] } := by
      simp [matchAtEsc, h, matchOsc_not_rb, matchApc_not_lb, isFeByte]
    have hs := controlSearch_esc ['[', c] _ hA
    rw [hs]
    have ha : csiFinalAlphabetAmended c = false := by
      rw [← isCsiFinal_eq_amended]; exact eq_false_of_ne_true hf
    simp [ha]

/-! ## Claim C1 -/

/-- C1 counterexample: `bg_color` carries no `@lru_cache` in the source
(term.py line 147 has only `@property`), so two consecutive accesses on the
same process state issue two `_query_term` round-trips, not at most one. -/
theorem claimC1_counterexample :
    (bg_color_access (Oracle.mk (fun _ => none) 24 80 0 0)
      ((bg_color_access (Oracle.mk (fun _ => none) 24 80 0 0)
        (CapState.mk 0 none none)).2)).2.queryCount = 2 := rfl

/-- C1 (amended): only `has_sixel_graphics` and `has_kitty_graphics` are
memoized (`@lru_cache`): when the first access returns normally, the state
after it is a fixed point of the accessor — the second access returns the
memoized value with no further `_query_term` call — and the first access
issues at most one call.  `bg_color` is not memoized: every access issues one
`_query_term` call (two consecutive accesses issue two).  `term_size_px` is
not memoized either: whenever the ioctl-reported pixel width is zero it
probes on every access, and when it is nonzero it never probes. -/
theorem claimC1_amended (o : Oracle) (s : CapState) (b : Bool) :
    ((has_sixel_access o s).1 = .ok b →
      has_sixel_access o (has_sixel_access o s).2 = (.ok b, (has_sixel_access o s).2) ∧
      (has_sixel_access o s).2.queryCount ≤ s.queryCount + 1) ∧
    ((has_kitty_access o s).1 = .ok b →
      has_kitty_access o (has_kitty_access o s).2 = (.ok b, (has_kitty_access o s).2) ∧
      (has_kitty_access o s).2.queryCount ≤ s.queryCount + 1) ∧
    ((bg_color_access o (bg_color_access o s).2).2.queryCount = s.queryCount + 2) ∧
    (o.xpx = 0 →
      (term_size_px_access o (term_size_px_access o s).2).2.queryCount = s.queryCount + 2) ∧
    (o.xpx ≠ 0 → (term_size_px_access o s).2 = s) := by
  refine ⟨?_, ?_, ?_, ?_, ?_⟩
  · intro hb
    cases hm : s.sixelMemo with
    | some v =>
      simp only [has_sixel_access, hm] at hb ⊢
      obtain rfl : v = b := by simpa using hb
      simp [hm]
    | none =>
      simp only [has_sixel_access, hm, runQuery] at hb ⊢
      cases hc : has_sixel_compute (o.resp QueryCode.sixel) with
      | ok v =>
        simp only [hc] at hb ⊢
        obtain rfl : v = b := by simpa using hb
        simp
      | error e => simp [hc] at hb
  · intro hb
    cases hm : s.kittyMemo with
    | some v =>
      simp only [has_kitty_access, hm] at hb ⊢
      obtain rfl : v = b := by simpa using hb
      simp [hm]
    | none =>
      simp only [has_kitty_access, hm, runQuery] at hb ⊢
      cases hc : has_kitty_compute (o.resp QueryCode.kitty) with
      | ok v =>
        simp only [hc] at hb ⊢
        obtain rfl : v = b := by simpa using hb
        simp
      | error e => simp [hc] at hb
  · simp [bg_color_access, runQuery]
  · intro hx
    simp [term_size_px_access, hx, runQuery]
  · intro hx
    simp [term_size_px_access, hx]

/-- C1 witness: the memoized accessors at a concrete oracle and fresh state,
and the non-probing `term_size_px` path at a nonzero ioctl width. -/
theorem claimC1_witness :
    has_sixel_access (Oracle.mk (fun _ => none) 24 80 0 0)
        (has_sixel_access (Oracle.mk (fun _ => none) 24 80 0 0)
          (CapState.mk 0 none none)).2 =
      (.ok false, (has_sixel_access (Oracle.mk (fun _ => none) 24 80 0 0)
          (CapState.mk 0 none none)).2) ∧
    has_kitty_access (Oracle.mk (fun _ => none) 24 80 0 0)
        (has_kitty_access (Oracle.mk (fun _ => none) 24 80 0 0)
          (CapState.mk 0 none none)).2 =
      (.ok false, (has_kitty_access (Oracle.mk (fun _ => none) 24 80 0 0)
          (CapState.mk 0 none none)).2) ∧
    (term_size_px_access (Oracle.mk (fun _ => none) 24 80 640 480)
      (CapState.mk 0 none none)).2 = CapState.mk 0 none none := by
  refine ⟨((claimC1_amended (Oracle.mk (fun _ => none) 24 80 0 0)
            (CapState.mk 0 none none) false).1 rfl).1,
          ((claimC1_amended (Oracle.mk (fun _ => none) 24 80 0 0)
            (CapState.mk 0 none none) false).2.1 rfl).1,
          (claimC1_amended (Oracle.mk (fun _ => none) 24 80 640 480)
            (CapState.mk 0 none none) false).2.2.2.2 (by decide)⟩

/-! ## Claim C2 -/

/-- C2: every execution of `_query_term` that exits the cbreak section —
normally or by an exception raised inside the byte-reading loop — performs
exactly one `tcsetattr` call, restoring the attribute set captured before the
mode switch, so the terminal mode after the call equals the mode before it.
(The only non-exit is the run that blocks forever inside `read`.) -/
theorem claimC2 (reads : List ReadEv) (w : TermWorld)
    (h : (query_term_run reads w).1 ≠ QueryOutcome.blocked) :
    (query_term_run reads w).2.tcsetattrCalls = w.tcsetattrCalls + 1 ∧
    (query_term_run reads w).2.cbreak = w.cbreak := by
  cases hl : queryLoop reads [] false with
  | finished out => simp [query_term_run, hl, tcsetattrPrim, setcbreakPrim]
  | raised => simp [query_term_run, hl, tcsetattrPrim, setcbreakPrim]
  | blocked => exact absurd (by simp [query_term_run, hl]) h

/-- C2 witness: a run whose read raises inside the loop restores the captured
attributes exactly once. -/
theorem claimC2_witness :
    (query_term_run [ReadEv.exn] (TermWorld.mk false 0)).1 = QueryOutcome.raised ∧
    (query_term_run [ReadEv.exn] (TermWorld.mk false 0)).2.tcsetattrCalls = 0 + 1 ∧
    (query_term_run [ReadEv.exn] (TermWorld.mk false 0)).2.cbreak = false := by
  refine ⟨rfl, (claimC2 [ReadEv.exn] (TermWorld.mk false 0) (by decide)).1,
          (claimC2 [ReadEv.exn] (TermWorld.mk false 0) (by decide)).2⟩

/-! ## Claim C3 -/

/-- C3: on an unchanged control (fixed `extraKeys`, initially empty format
cache), the first `get_rendered_lines` call at width `w` invokes the renderer
exactly once; every further call at the same width — at any height, since the
height is not part of the cache key — returns the same lines and leaves the
state unchanged (so any number of such calls keeps the invocation count at
one); a subsequent call at a different width invokes the renderer a second
time. -/
theorem claimC3 (rf : Nat → Nat → List Char) (ek : List Bool) (rl : List (List Char))
    (w h1 h2 w2 h3 : Nat) :
    (get_rendered_lines rf w h1 (Ctl.mk ek [] rl 0)).2.renderCount = 1 ∧
    get_rendered_lines rf w h2 (get_rendered_lines rf w h1 (Ctl.mk ek [] rl 0)).2 =
      ((get_rendered_lines rf w h1 (Ctl.mk ek [] rl 0)).1,
       (get_rendered_lines rf w h1 (Ctl.mk ek [] rl 0)).2) ∧
    (w2 ≠ w →
      (get_rendered_lines rf w2 h3
        (get_rendered_lines rf w h1 (Ctl.mk ek [] rl 0)).2).2.renderCount = 2) := by
  refine ⟨?_, ?_, ?_⟩
  · simp [get_rendered_lines, cacheLookup, renderCtl]
  · simp [get_rendered_lines, cacheLookup, renderCtl]
  · intro hne
    have hne' : ¬((w, ek) = (w2, ek)) := by
      intro hcontra
      exact hne (Prod.mk.injEq _ _ _ _ ▸ hcontra).1.symm
    simp [get_rendered_lines, cacheLookup, renderCtl, hne']

/-- C3 witness: concrete renderer and sizes; `render(80, 24)` then
`render(80, 25)` is one invocation, `render(81, 23)` afterwards is a second. -/
theorem claimC3_witness :
    (get_rendered_lines (fun _ _ => []) 80 24 (Ctl.mk [] [] [] 0)).2.renderCount = 1 ∧
    (get_rendered_lines (fun _ _ => []) 81 23
      (get_rendered_lines (fun _ _ => []) 80 24 (Ctl.mk [] [] [] 0)).2).2.renderCount = 2 := by
  refine ⟨(claimC3 (fun _ _ => []) [] [] 80 24 25 81 23).1,
          (claimC3 (fun _ _ => []) [] [] 80 24 25 81 23).2.2 (by decide)⟩

/-! ## Claim C4 -/

/-- C4 (code bug): with a zero ioctl pixel width and the fallback probe
answering `\x1b[4;300;400t`, the capture groups parse as `y = 300`,
`x = 400`, but `term_size_px` evaluates to `(1, 1)`: the source line
`if (x := values.get("x") is not None) and (y := values.get("y") is not None)`
binds the walrus targets to the *booleans* of the `is not None` comparisons
(precedence), and `px, py = int(x), int(y)` is then `int(True), int(True)`.
The spec's intended result, the parsed `(x, y) = (400, 300)`, is discarded. -/
theorem claimC4_bug_eval :
    pixelDimsMatch ['4', ';', '3', '0', '0', ';', '4', '0', '0'] =
      some (['3', '0', '0'], ['4', '0', '0']) ∧
    term_size_px 0 0 (controlSearch
      ['\x1b', '[', '4', ';', '3', '0', '0', ';', '4', '0', '0', 't']) = .ok (1, 1) := by
  exact ⟨rfl, rfl⟩

/-! ## Claim C7 -/

/-- C7: `has_sixel_graphics` computes `true` exactly when the probe result is
a match whose (participating) CSI parameter string contains at least three
numeric runs with the second equal to zero; a result without a participating
CSI parameter group never yields `true`; the spec's concrete instances
`0;0;0 ↦ true` and `0;1;0 ↦ false` hold, and an absent response (a probe
that failed to classify, so `_query_term` returned `None`) yields `false`
rather than an error. -/
theorem claimC7 :
    (∀ (m : ControlMatch) (s : List Char), m.csi_params = some s →
      (has_sixel_compute (some m) = .ok true ↔
        3 ≤ ((digitRuns s).map natOfDigits).length ∧
        ((digitRuns s).map natOfDigits).get? 1 = some 0)) ∧
    (∀ m : ControlMatch, m.csi_params = none → has_sixel_compute (some m) ≠ .ok true) ∧
    has_sixel_compute (controlSearch ['\x1b', '[', '0', ';', '0', ';', '0', 'S']) = .ok true ∧
    has_sixel_compute (controlSearch ['\x1b', '[', '0', ';', '1', ';', '0', 'S']) = .ok false ∧
    has_sixel_compute none = .ok false := by
  refine ⟨?_, ?_, rfl, rfl, rfl⟩
  · intro m s hm
    simp only [has_sixel_compute, hm]
    cases hL : (digitRuns s).map natOfDigits with
    | nil => simp
    | cons p1 L1 =>
      cases L1 with
      | nil => simp
      | cons p2 L2 =>
        cases L2 with
        | nil => simp
        | cons p3 L3 =>
          by_cases hp : p2 = 0
          · subst hp; simp
          · simp [hp]
  · intro m hm
    simp [has_sixel_compute, hm]

/-- C7 witness: the characterization applied at a concrete CSI parameter
string. -/
theorem claimC7_witness :
    has_sixel_compute (some { csi_params := some ['0', ';', '0', ';', '0'] }) = .ok true := by
  exact (claimC7.1 { csi_params := some ['0', ';', '0', ';', '0'] }
    ['0', ';', '0', ';', '0'] rfl).mpr ⟨by decide, by decide⟩

/-! ## Claim C8 -/

theorem take4_take2 : ∀ l : List Char, (l.take 4).take 2 = l.take 2
  | [] => rfl
  | [_] => rfl
  | _ :: _ :: _ => rfl

theorem take2_append (B T : List Char) (h : 2 ≤ B.length) :
    (B ++ T).take 2 = B.take 2 := by
  match B, h with
  | a :: b :: B2, _ => rfl

/-- C8 counterexample: the claim states that a payload not of the form
`11;rgb:R/G/B` (hex fields of two to four digits) makes `bg_color` return
`None`; but the pattern is applied with `re.match`, which only anchors the
start, so the payload `11;rgb:12/34/56x` — not of that form because of the
trailing `x` — still yields `#123456`. -/
theorem claimC8_counterexample :
    bg_color (controlSearch
      ['\x1b', ']', '1', '1', ';', 'r', 'g', 'b', ':', '1', '2', '/', '3', '4',
       '/', '5', '6', 'x', '\x07']) =
      some ['#', '1', '2', '3', '4', '5', '6'] := by decide

/-- C8 (amended): the background-colour pattern is matched as a *prefix* of
the OSC payload: whenever the payload begins with `11;rgb:R/G/B` with hex
fields of two to four digits, `bg_color` returns `#` followed by the first
two characters of each field in r, g, b order, with arbitrary trailing bytes
after the third field ignored; it returns `None` when the probe fails, when
the result has no participating OSC string, or when no prefix of the payload
matches the pattern. -/
theorem claimC8_amended :
    (∀ (R G B T : List Char) (m : ControlMatch),
      m.osc_string = some ('1' :: '1' :: ';' :: 'r' :: 'g' :: 'b' :: ':' ::
        (R ++ '/' :: (G ++ '/' :: (B ++ T)))) →
      (∀ c ∈ R, isHexB c = true) → 2 ≤ R.length → R.length ≤ 4 →
      (∀ c ∈ G, isHexB c = true) → 2 ≤ G.length → G.length ≤ 4 →
      (∀ c ∈ B, isHexB c = true) → 2 ≤ B.length → B.length ≤ 4 →
      bg_color (some m) = some ('#' :: (R.take 2 ++ G.take 2 ++ B.take 2))) ∧
    bg_color none = none ∧
    (∀ m : ControlMatch, m.osc_string = none → bg_color (some m) = none) ∧
    (∀ (m : ControlMatch) (s : List Char), m.osc_string = some s →
      bgColorMatch s = none → bg_color (some m) = none) := by
  refine ⟨?_, rfl, ?_, ?_⟩
  · intro R G B T m hm hR hR2 hR4 hG hG2 hG4 hB hB2 hB4
    have hslash : isHexB '/' = false := by decide
    have hBlen : 2 ≤ B.length + (T.takeWhile isHexB).length := by omega
    simp [bg_color, hm, bgColorMatch,
          takeWhile_append_all isHexB R _ hR, dropWhile_append_all isHexB R _ hR,
          takeWhile_append_all isHexB G _ hG, dropWhile_append_all isHexB G _ hG,
          takeWhile_append_all isHexB B _ hB, dropWhile_append_all isHexB B _ hB,
          hslash, hR2, hR4, hG2, hG4, hBlen, take4_take2, take2_append B _ hB2]
  · intro m hm
    simp [bg_color, hm]
  · intro m s hm hmatch
    by_cases hs : s = [] <;> simp [bg_color, hm, hs, hmatch]

/-- C8 witness: the spec's own example payload `11;rgb:1234/5678/9abc`
yields `#12569a`. -/
theorem claimC8_witness :
    bg_color (some { osc_string := some (['1', '1', ';', 'r', 'g', 'b', ':',
      '1', '2', '3', '4', '/', '5', '6', '7', '8', '/', '9', 'a', 'b', 'c']) }) =
      some ['#', '1', '2', '5', '6', '9', 'a'] := by
  exact claimC8_amended.1 ['1', '2', '3', '4'] ['5', '6', '7', '8']
    ['9', 'a', 'b', 'c'] [] _ rfl
    (by decide) (by decide) (by decide) (by decide) (by decide) (by decide)
    (by decide) (by decide) (by decide)

/-! ## Claim C9 -/

/-- C9: `preferred_width` never invokes the renderer (it leaves the control
state untouched); `preferred_height` leaves the renderer-invocation count
unchanged whenever lines for the requested width are already in the format
cache; and whenever `preferred_height` does invoke the renderer, no rendered
lines were stored and the format cache held no entry for that width. -/
theorem claimC9 (measure : List Char → Nat) (rf : Nat → Nat → List Char)
    (w maxH : Nat) (st : Ctl) :
    (preferred_width measure st).2 = st ∧
    (∀ v, cacheLookup st.formatCache (w, st.extraKeys) = some v →
      (preferred_height rf w maxH st).2.renderCount = st.renderCount) ∧
    ((preferred_height rf w maxH st).2.renderCount ≠ st.renderCount →
      st.renderedLines = [] ∧ cacheLookup st.formatCache (w, st.extraKeys) = none) := by
  refine ⟨?_, ?_, ?_⟩
  · by_cases hr : st.renderedLines = [] <;> simp [preferred_width, hr]
  · intro v hv
    by_cases hr : st.renderedLines = [] <;>
      simp [preferred_height, hr, get_rendered_lines, hv]
  · intro hne
    by_cases hr : st.renderedLines = []
    · cases hl : cacheLookup st.formatCache (w, st.extraKeys) with
      | some v =>
        exact absurd (by simp [preferred_height, hr, get_rendered_lines, hl]) hne
      | none => exact ⟨hr, rfl⟩
    · exact absurd (by simp [preferred_height, hr]) hne

/-- C9 witness: with lines for width 80 cached, `preferred_height` performs
no renderer invocation. -/
theorem claimC9_witness :
    (preferred_height (fun _ _ => []) 80 24
      (Ctl.mk [] [((80, []), [['a']])] [] 0)).2.renderCount =
      (Ctl.mk [] [((80, []), [['a']])] [] 0).renderCount := by
  exact (claimC9 (fun _ => 0) (fun _ _ => []) 80 24
    (Ctl.mk [] [((80, []), [['a']])] [] 0)).2.1 [['a']] rfl

/-! ## Claim C10 -/

/-- C10: `char_size_px` returns the fixed guess `(10, 22)` whenever the
reported pixel width is zero; when the pixel width is nonzero and both cell
counts are nonzero it returns the unguarded integer divisions
`(px // cols, py // rows)`; and when the pixel width is nonzero but the
column or row count is zero, the division raises (`ZeroDivisionError`)
instead of falling back to the guess. -/
theorem claimC10 (px py rows cols : Nat) :
    (px = 0 → char_size_px px py rows cols = .ok (10, 22)) ∧
    (px ≠ 0 → cols ≠ 0 → rows ≠ 0 →
      char_size_px px py rows cols = .ok (px / cols, py / rows)) ∧
    (px ≠ 0 → (cols = 0 ∨ rows = 0) → char_size_px px py rows cols = .error ()) := by
  refine ⟨?_, ?_, ?_⟩
  · intro h
    simp [char_size_px, h]
  · intro h1 h2 h3
    simp [char_size_px, h1, h2, h3]
  · intro h1 h2
    rcases h2 with h2 | h2 <;> simp [char_size_px, h1, h2]

/-- C10 witness: the guess at zero pixel width; the divisions at nonzero
width; the raising path at a zero row count. -/
theorem claimC10_witness :
    char_size_px 0 5 3 4 = .ok (10, 22) ∧
    char_size_px 100 200 5 10 = .ok (10, 40) ∧
    char_size_px 100 200 0 10 = .error () := by
  refine ⟨(claimC10 0 5 3 4).1 rfl, ?_, ?_⟩
  · have h := (claimC10 100 200 5 10).2.1 (by decide) (by decide) (by decide)
    simpa using h
  · exact (claimC10 100 200 0 10).2.2 (by decide) (Or.inr rfl)
